import Mathlib

/-
Verification development for the `locktick` lock-instrumentation library.

The development shallowly embeds the core of `src/lock_info.rs` together with
the backend adapters in `src/std.rs` and `src/parking_lot.rs`:

* the two process-wide statics `LOCK_INFOS` (the registry mapping a lock's
  creation `Location` to its `LockInfo`) and `GUARD_COUNTER` (the atomic id
  source) are gathered into an explicit `GlobalState` record that every
  operation threads through;
* the `HashMap`s used by the code are embedded as association lists with
  `alookup` / `ainsert` / `aremove` mirroring `get`, `insert` and `remove`;
* `Duration` / `Instant` values are modelled as natural numbers (nanosecond
  ticks); `Instant::now()` readings become explicit `now` arguments;
* `Rust` panics (`unwrap` on a missing entry, `unreachable!`) are modelled by
  an `Option` result, `none` meaning the operation aborts;
* the `SingleSumSMA<Duration, u32, 50>` moving average comes from the external
  `simple_moving_average` crate: its circular-buffer state (zero-initialized
  buffer, running sum, write index, saturating sample count) is embedded
  faithfully so that the windowing behaviour is proved, not assumed.
-/

namespace Locktick

/-! ## Association-list maps (embedding of the `HashMap`s used by the code) -/

def alookup {α β : Type} [DecidableEq α] (k : α) : List (α × β) → Option β
  | [] => none
  | (k', v) :: t => if k' = k then some v else alookup k t

def ainsert {α β : Type} [DecidableEq α] (k : α) (v : β) : List (α × β) → List (α × β)
  | [] => [(k, v)]
  | (k', v') :: t => if k' = k then (k, v) :: t else (k', v') :: ainsert k v t

def aremove {α β : Type} [DecidableEq α] (k : α) : List (α × β) → List (α × β)
  | [] => []
  | (k', v') :: t => if k' = k then t else (k', v') :: aremove k t

/-- Keys of the association list are pairwise distinct (the `HashMap` key
invariant). -/
def NodupKeys {α β : Type} (m : List (α × β)) : Prop :=
  (m.map Prod.fst).Nodup

instance {α β : Type} [DecidableEq α] (m : List (α × β)) : Decidable (NodupKeys m) := by
  unfold NodupKeys; infer_instance

/-! ## Data model from `src/lock_info.rs` -/

/-- Points to the filesystem location where a lock or guard was created. -/
structure Location where
  path : String
  line : Nat
  col : Nat
deriving DecidableEq, Repr

/-- The type of the lock; either a `Mutex` or an `RwLock`. -/
inductive LockKind where
  | Mutex
  | RwLock
deriving DecidableEq, Repr

/-- The type of the guard that was created when working with a lock. -/
inductive GuardKind where
  | Lock
  | Read
  | Write
deriving DecidableEq, Repr

/-- Window size of the moving averages: the code instantiates
`SingleSumSMA<Duration, u32, 50>`. -/
def WINDOW : Nat := 50

/-- State of `simple_moving_average::SingleSumSMA` (external dependency of the
code, embedded from its documented single-sum circular-buffer semantics):
a zero-initialized buffer of `WINDOW` samples, a running sum of the buffer,
the next write index, and the number of samples added so far saturating at
`WINDOW`. -/
structure SingleSumSMA where
  samples : List Nat
  sum : Nat
  index : Nat
  sampleCount : Nat
deriving DecidableEq, Repr

/-- Embeds `SingleSumSMA::from_zero(Duration::ZERO)`. -/
def SingleSumSMA.from_zero : SingleSumSMA :=
  { samples := List.replicate WINDOW 0
    sum := 0
    index := 0
    sampleCount := 0 }

/-- Embeds `SMA::add_sample`: replace the oldest buffered sample with the new
one, updating the running sum, the write index and the saturating count. -/
def SingleSumSMA.add_sample (a : SingleSumSMA) (s : Nat) : SingleSumSMA :=
  { samples := a.samples.set a.index s
    sum := a.sum - a.samples.getD a.index 0 + s
    index := (a.index + 1) % WINDOW
    sampleCount := min (a.sampleCount + 1) WINDOW }

/-- Embeds `SMA::get_average`: the zero value when no sample was added, and
otherwise the running sum divided by the sample count. -/
def SingleSumSMA.get_average (a : SingleSumSMA) : Nat :=
  if a.sampleCount = 0 then 0 else a.sum / a.sampleCount

/-- Contains data and statistics related to a single guard. Maps are keyed by
guard index; timestamps, durations and averages are in nanosecond ticks. -/
structure GuardInfo where
  kind : GuardKind
  location : Location
  num_uses : Nat
  active_uses : List (Nat × Nat)
  waiting_tasks : List (Nat × Nat)
  avg_wait_time : SingleSumSMA
  max_wait_time : Nat
  avg_duration : SingleSumSMA
  max_duration : Nat
deriving DecidableEq, Repr

/-- Embeds `GuardInfo::new`. -/
def GuardInfo.new (kind : GuardKind) (location : Location) : GuardInfo :=
  { kind := kind
    location := location
    num_uses := 0
    active_uses := []
    waiting_tasks := []
    avg_wait_time := SingleSumSMA.from_zero
    max_wait_time := 0
    avg_duration := SingleSumSMA.from_zero
    max_duration := 0 }

/-- Embeds `GuardInfo::num_active_uses`. -/
def GuardInfo.num_active_uses (gi : GuardInfo) : Nat :=
  gi.active_uses.length

/-- Embeds `GuardInfo::num_waiting`. -/
def GuardInfo.num_waiting (gi : GuardInfo) : Nat :=
  gi.waiting_tasks.length

/-- Embeds `GuardInfo::avg_wait_time`. -/
def GuardInfo.avg_wait_time_view (gi : GuardInfo) : Nat :=
  gi.avg_wait_time.get_average

/-- Embeds `GuardInfo::avg_duration`. -/
def GuardInfo.avg_duration_view (gi : GuardInfo) : Nat :=
  gi.avg_duration.get_average

/-- Contains all the details related to a given lock. -/
structure LockInfo where
  kind : LockKind
  location : Location
  known_guards : List (Location × GuardInfo)
deriving DecidableEq, Repr

/-- The two process-wide statics of `lock_info.rs` gathered into one record:
`LOCK_INFOS` (the registry) and `GUARD_COUNTER` (the shared id source). -/
structure GlobalState where
  lock_infos : List (Location × LockInfo)
  guard_counter : Nat
deriving DecidableEq, Repr

/-- The state at process start: empty registry, counter at zero. -/
def GlobalState.init : GlobalState :=
  { lock_infos := [], guard_counter := 0 }

/-- Embeds `LockInfo::register`; the caller's resolved `Location` is passed
explicitly (the stack-walking `call_location` is outside the model). Returns
the updated state and the returned location: on a vacant entry the fresh
`LockInfo` is inserted and the resolved location returned, on an occupied
entry nothing is inserted and the stored `LockInfo`'s location is returned. -/
def LockInfo.register (kind : LockKind) (loc : Location) (st : GlobalState) :
    GlobalState × Location :=
  match alookup loc st.lock_infos with
  | none =>
      ({ st with lock_infos :=
          ainsert loc { kind := kind, location := loc, known_guards := [] } st.lock_infos },
        loc)
  | some info => (st, info.location)

/-- Embeds `lock_snapshots`: a copy of every `LockInfo` in the registry. -/
def lock_snapshots (st : GlobalState) : List LockInfo :=
  st.lock_infos.map Prod.snd

/-- Embeds the test-only `clear_lock_infos`. -/
def clear_lock_infos (st : GlobalState) : GlobalState :=
  { st with lock_infos := [] }

/-- A wrapper for the lock guard produced when working with a lock; the native
guard payload `T` is opaque to the accounting and omitted. -/
structure LockGuard where
  lock_location : Location
  guard_location : Location
  guard_index : Nat
deriving DecidableEq, Repr

/-- A RAII guard that tracks when a task is waiting for a lock. -/
structure WaitGuard where
  lock_location : Location
  guard_location : Location
  guard_kind : GuardKind
  wait_index : Nat
  finished : Bool
deriving DecidableEq, Repr

/-- Embeds `LockGuard::new`: on a registered lock location, mint a fresh index
from the counter, `or_insert` the `GuardInfo` for the guard location, bump
`num_uses`, fold `wait_time` into the wait statistics, record the active use,
and return the wrapped guard. `none` embeds the `unreachable!` panic taken
when the lock location is not registered. -/
def LockGuard.new (guard_kind : GuardKind) (lock_location guard_location : Location)
    (wait_time now : Nat) (st : GlobalState) : Option (GlobalState × LockGuard) :=
  match alookup lock_location st.lock_infos with
  | none => none
  | some li =>
      let guard_idx := st.guard_counter
      let gi := (alookup guard_location li.known_guards).getD
        (GuardInfo.new guard_kind guard_location)
      let gi := { gi with
        num_uses := gi.num_uses + 1
        avg_wait_time := gi.avg_wait_time.add_sample wait_time
        max_wait_time := if wait_time > gi.max_wait_time then wait_time else gi.max_wait_time
        active_uses := ainsert guard_idx now gi.active_uses }
      some
        ({ st with
            lock_infos := ainsert lock_location
              { li with known_guards := ainsert guard_location gi li.known_guards }
              st.lock_infos
            guard_counter := st.guard_counter + 1 },
          { lock_location := lock_location
            guard_location := guard_location
            guard_index := guard_idx })

/-- Embeds `WaitGuard::new`: mint a fresh index, `or_insert` the `GuardInfo`
and record the waiting task under that index. `none` embeds the
`unreachable!` panic on an unregistered lock location. -/
def WaitGuard.new (guard_kind : GuardKind) (lock_location guard_location : Location)
    (now : Nat) (st : GlobalState) : Option (GlobalState × WaitGuard) :=
  match alookup lock_location st.lock_infos with
  | none => none
  | some li =>
      let wait_index := st.guard_counter
      let gi := (alookup guard_location li.known_guards).getD
        (GuardInfo.new guard_kind guard_location)
      let gi := { gi with waiting_tasks := ainsert wait_index now gi.waiting_tasks }
      some
        ({ st with
            lock_infos := ainsert lock_location
              { li with known_guards := ainsert guard_location gi li.known_guards }
              st.lock_infos
            guard_counter := st.guard_counter + 1 },
          { lock_location := lock_location
            guard_location := guard_location
            guard_kind := guard_kind
            wait_index := wait_index
            finished := false })

/-- Embeds `WaitGuard::finish`: consume the guard with the flag set so its
`Drop` impl does nothing. -/
def WaitGuard.finish (wg : WaitGuard) : WaitGuard :=
  { wg with finished := true }

/-- Embeds `LockGuard::from_wait_guard`: the wait guard is finished (so its
cleanup never runs), the waiting entry under its index is removed, `num_uses`
is bumped, `wait_time` folded into the wait statistics and an active use is
recorded under the same index. `none` embeds the `unreachable!` panic. -/
def LockGuard.from_wait_guard (wg : WaitGuard) (wait_time now : Nat)
    (st : GlobalState) : Option (GlobalState × LockGuard) :=
  match alookup wg.lock_location st.lock_infos with
  | none => none
  | some li =>
      let gi := (alookup wg.guard_location li.known_guards).getD
        (GuardInfo.new wg.guard_kind wg.guard_location)
      let gi := { gi with
        waiting_tasks := aremove wg.wait_index gi.waiting_tasks
        num_uses := gi.num_uses + 1
        avg_wait_time := gi.avg_wait_time.add_sample wait_time
        max_wait_time := if wait_time > gi.max_wait_time then wait_time else gi.max_wait_time
        active_uses := ainsert wg.wait_index now gi.active_uses }
      some
        ({ st with
            lock_infos := ainsert wg.lock_location
              { li with known_guards := ainsert wg.guard_location gi li.known_guards }
              st.lock_infos },
          { lock_location := wg.lock_location
            guard_location := wg.guard_location
            guard_index := wg.wait_index })

/-- Embeds `impl Drop for WaitGuard`: a finished guard does nothing; otherwise
the waiting entry under the guard's index is removed, with missing lock or
guard entries silently skipped (`if let Some` chains in the source). -/
def WaitGuard.drop (wg : WaitGuard) (st : GlobalState) : GlobalState :=
  if wg.finished then st
  else
    match alookup wg.lock_location st.lock_infos with
    | none => st
    | some li =>
        match alookup wg.guard_location li.known_guards with
        | none => st
        | some gi =>
            let gi := { gi with waiting_tasks := aremove wg.wait_index gi.waiting_tasks }
            { st with
              lock_infos := ainsert wg.lock_location
                { li with known_guards := ainsert wg.guard_location gi li.known_guards }
                st.lock_infos }

/-- Embeds `impl Drop for LockGuard`: with the lock's `LockInfo` present, the
active-use entry is removed by the guard's index (a missing guard entry or
missing index is an `unwrap` panic, embedded as `none`), the hold duration
`now - acquire_time` is folded into the duration statistics; with the
`LockInfo` absent the drop silently skips all accounting. -/
def LockGuard.drop (lg : LockGuard) (now : Nat) (st : GlobalState) : Option GlobalState :=
  match alookup lg.lock_location st.lock_infos with
  | none => some st
  | some li =>
      match alookup lg.guard_location li.known_guards with
      | none => none
      | some gi =>
          match alookup lg.guard_index gi.active_uses with
          | none => none
          | some guard_timestamp =>
              let duration := now - guard_timestamp
              let gi := { gi with
                active_uses := aremove lg.guard_index gi.active_uses
                avg_duration := gi.avg_duration.add_sample duration
                max_duration := if duration > gi.max_duration then duration else gi.max_duration }
              some
                { st with
                  lock_infos := ainsert lg.lock_location
                    { li with known_guards := ainsert lg.guard_location gi li.known_guards }
                    st.lock_infos }

/-! ## Backend adapters (`src/std.rs`, `src/parking_lot.rs`)

The native primitive's behaviour is an input of the model: the outcome of
`try_lock` on the native lock and the outcome of the blocking `lock` call are
passed as parameters, since the native lock itself is out of scope. -/

/-- Outcome of the native non-blocking attempt (`std::sync::TryLockError`):
success, contention, or poisoning. -/
inductive TryRes where
  | ok
  | wouldBlock
  | poisoned
deriving DecidableEq, Repr

/-- Failure value returned by `std`'s `try_lock` wrapper, mirroring
`TryLockError`. -/
inductive TryFail where
  | wouldBlock
  | poisoned
deriving DecidableEq, Repr

/-- Embeds `std.rs` `Mutex::lock` (the `RwLock::read` / `RwLock::write`
wrappers have the identical shape): fast non-blocking attempt first; on
success a `LockGuard` is created directly; on poisoning the error is returned
with no bookkeeping; on contention a `WaitGuard` is created, then the real
blocking acquisition runs (`block_ok` tells whether it succeeds or reports
poisoning) — on success the `WaitGuard` converts into a `LockGuard`, on
poisoning the error propagates and the `WaitGuard` is dropped. The outer
`none` embeds a panic inside the bookkeeping. -/
def stdMutex.lock (try_res : TryRes) (block_ok : Bool)
    (lock_location guard_location : Location) (fast_wait slow_wait now_fast now_slow : Nat)
    (st : GlobalState) : Option (GlobalState × Except Unit LockGuard) :=
  match try_res with
  | .ok =>
      (LockGuard.new .Lock lock_location guard_location fast_wait now_fast st).map
        (fun p => (p.1, .ok p.2))
  | .poisoned => some (st, .error ())
  | .wouldBlock =>
      match WaitGuard.new .Lock lock_location guard_location now_fast st with
      | none => none
      | some (st1, wg) =>
          if block_ok then
            (LockGuard.from_wait_guard wg slow_wait now_slow st1).map
              (fun p => (p.1, .ok p.2))
          else
            some (WaitGuard.drop wg st1, .error ())

/-- Embeds `std.rs` `Mutex::try_lock` (and the `try_read` / `try_write`
variants): any native failure is propagated by `?` before any registry or
statistics access; only a native success reaches `LockGuard::new`. -/
def stdMutex.try_lock (try_res : TryRes) (lock_location guard_location : Location)
    (wait_time now : Nat) (st : GlobalState) :
    Option (GlobalState × Except TryFail LockGuard) :=
  match try_res with
  | .ok =>
      (LockGuard.new .Lock lock_location guard_location wait_time now st).map
        (fun p => (p.1, .ok p.2))
  | .wouldBlock => some (st, .error .wouldBlock)
  | .poisoned => some (st, .error .poisoned)

/-- Embeds `parking_lot.rs` `Mutex::try_lock` (and the `try_read` /
`try_write` variants): a failed native attempt returns `None` via `?` before
any bookkeeping. -/
def plMutex.try_lock (native_ok : Bool) (lock_location guard_location : Location)
    (wait_time now : Nat) (st : GlobalState) :
    Option (GlobalState × Option LockGuard) :=
  if native_ok then
    (LockGuard.new .Lock lock_location guard_location wait_time now st).map
      (fun p => (p.1, some p.2))
  else
    some (st, none)

/-! ## Lifecycle traces

Interleavings of the core operations, used to state the trace invariants
(monotone `num_uses`, id uniqueness). Guard records carried by an operation
stand for guards handed back by earlier operations; the invariants below hold
for arbitrary records, so in particular for the real ones. -/

/-- One core lifecycle operation. -/
inductive Op where
  | register (kind : LockKind) (loc : Location)
  | guardNew (kind : GuardKind) (lock_loc guard_loc : Location) (wait_time now : Nat)
  | waitNew (kind : GuardKind) (lock_loc guard_loc : Location) (now : Nat)
  | fromWait (wg : WaitGuard) (wait_time now : Nat)
  | guardDrop (lg : LockGuard) (now : Nat)
  | waitDrop (wg : WaitGuard)
deriving DecidableEq, Repr

/-- Effect of one operation on the global state; `none` embeds a panic. -/
def Op.step (st : GlobalState) : Op → Option GlobalState
  | .register kind loc => some (LockInfo.register kind loc st).1
  | .guardNew kind ll gl w n => (LockGuard.new kind ll gl w n st).map Prod.fst
  | .waitNew kind ll gl n => (WaitGuard.new kind ll gl n st).map Prod.fst
  | .fromWait wg w n => (LockGuard.from_wait_guard wg w n st).map Prod.fst
  | .guardDrop lg n => LockGuard.drop lg n st
  | .waitDrop wg => some (WaitGuard.drop wg st)

/-- Run a list of operations in order; the run fails if any step panics. -/
def runOps : List Op → GlobalState → Option GlobalState
  | [], st => some st
  | op :: t, st =>
      match op.step st with
      | none => none
      | some st' => runOps t st'

/-- The `num_uses` counter of the guard site `(ll, gl)` in a state (zero when
the lock or guard entry does not exist). -/
def numUsesAt (ll gl : Location) (st : GlobalState) : Nat :=
  match alookup ll st.lock_infos with
  | none => 0
  | some li =>
      match alookup gl li.known_guards with
      | none => 0
      | some gi => gi.num_uses

/-- The number of active-use entries of the guard site `(ll, gl)`. -/
def activeAt (ll gl : Location) (st : GlobalState) : Nat :=
  match alookup ll st.lock_infos with
  | none => 0
  | some li =>
      match alookup gl li.known_guards with
      | none => 0
      | some gi => gi.active_uses.length

/-- Whether an operation produces a `LockGuard` at the guard site `(ll, gl)`:
a fast-path creation or a wait-guard conversion there. -/
def producesAt (ll gl : Location) : Op → Bool
  | .guardNew _ ll' gl' _ _ => ll' = ll ∧ gl' = gl
  | .fromWait wg _ _ => wg.lock_location = ll ∧ wg.guard_location = gl
  | _ => false

/-- Number of guard-producing operations at `(ll, gl)` in a trace. -/
def countProduces (ll gl : Location) (ops : List Op) : Nat :=
  (ops.filter (producesAt ll gl)).length

/-- The ids freshly minted by one operation in a given state (the indices the
returned guards carry): `LockGuard::new` and `WaitGuard::new` each mint one
from the shared counter, the other operations mint none. -/
def Op.mintsOf (st : GlobalState) : Op → List Nat
  | .guardNew kind ll gl w n =>
      match LockGuard.new kind ll gl w n st with
      | none => []
      | some (_, lg) => [lg.guard_index]
  | .waitNew kind ll gl n =>
      match WaitGuard.new kind ll gl n st with
      | none => []
      | some (_, wg) => [wg.wait_index]
  | _ => []

/-- Run a trace collecting the ids minted along the way. -/
def runMint : List Op → GlobalState → Option (GlobalState × List Nat)
  | [], st => some (st, [])
  | op :: t, st =>
      match op.step st with
      | none => none
      | some st' => (runMint t st').map (fun p => (p.1, op.mintsOf st ++ p.2))

/-! ## Lemmas about the association-list maps -/

theorem alookup_ainsert_self {α β : Type} [DecidableEq α] (k : α) (v : β)
    (m : List (α × β)) : alookup k (ainsert k v m) = some v := by
  induction m with
  | nil => simp [ainsert, alookup]
  | cons p t ih =>
      obtain ⟨k', v'⟩ := p
      by_cases h : k' = k
      · simp [ainsert, h, alookup]
      · simp [ainsert, h, alookup, ih]

theorem alookup_ainsert_ne {α β : Type} [DecidableEq α] {k' k : α} (v : β)
    (m : List (α × β)) (h : k' ≠ k) : alookup k' (ainsert k v m) = alookup k' m := by
  have h' : ¬k = k' := fun e => h e.symm
  induction m with
  | nil => simp [ainsert, alookup, h']
  | cons p t ih =>
      obtain ⟨a, b⟩ := p
      by_cases ha : a = k
      · subst ha
        simp [ainsert, alookup, h']
      · simp [ainsert, ha, alookup, ih]

theorem alookup_aremove_ne {α β : Type} [DecidableEq α] {k' k : α}
    (m : List (α × β)) (h : k' ≠ k) : alookup k' (aremove k m) = alookup k' m := by
  have h' : ¬k = k' := fun e => h e.symm
  induction m with
  | nil => simp [aremove]
  | cons p t ih =>
      obtain ⟨a, b⟩ := p
      by_cases ha : a = k
      · subst ha
        simp [aremove, alookup, h']
      · simp [aremove, ha, alookup, ih]

theorem alookup_eq_none_of_not_mem_keys {α β : Type} [DecidableEq α] {k : α}
    {m : List (α × β)} (h : k ∉ m.map Prod.fst) : alookup k m = none := by
  induction m with
  | nil => simp [alookup]
  | cons p t ih =>
      obtain ⟨a, b⟩ := p
      simp only [List.map_cons, List.mem_cons, not_or] at h
      have h' : ¬a = k := fun e => h.1 e.symm
      simp [alookup, h', ih h.2]

theorem alookup_mem {α β : Type} [DecidableEq α] {k : α} {v : β}
    {m : List (α × β)} (h : alookup k m = some v) : (k, v) ∈ m := by
  induction m with
  | nil => simp [alookup] at h
  | cons p t ih =>
      obtain ⟨a, b⟩ := p
      by_cases ha : a = k
      · subst ha
        simp [alookup] at h
        simp [h]
      · simp [alookup, ha] at h
        exact List.mem_cons_of_mem _ (ih h)

theorem mem_keys_of_alookup {α β : Type} [DecidableEq α] {k : α} {v : β}
    {m : List (α × β)} (h : alookup k m = some v) : k ∈ m.map Prod.fst := by
  have := alookup_mem h
  exact List.mem_map.2 ⟨(k, v), this, rfl⟩

theorem alookup_aremove_self {α β : Type} [DecidableEq α] (k : α)
    {m : List (α × β)} (h : NodupKeys m) : alookup k (aremove k m) = none := by
  induction m with
  | nil => simp [aremove, alookup]
  | cons p t ih =>
      obtain ⟨a, b⟩ := p
      unfold NodupKeys at h
      simp only [List.map_cons, List.nodup_cons] at h
      by_cases ha : a = k
      · subst ha
        simp only [aremove, if_pos rfl]
        exact alookup_eq_none_of_not_mem_keys h.1
      · simp [aremove, ha, alookup, ih h.2]

theorem aremove_ainsert {α β : Type} [DecidableEq α] (k : α) (v : β)
    {m : List (α × β)} (h : alookup k m = none) : aremove k (ainsert k v m) = m := by
  induction m with
  | nil => simp [ainsert, aremove]
  | cons p t ih =>
      obtain ⟨a, b⟩ := p
      by_cases ha : a = k
      · subst ha
        simp [alookup] at h
      · simp only [alookup, if_neg ha] at h
        simp [ainsert, ha, aremove, ih h]

theorem mem_keys_ainsert {α β : Type} [DecidableEq α] {x k : α} {v : β}
    {m : List (α × β)} :
    x ∈ (ainsert k v m).map Prod.fst ↔ x = k ∨ x ∈ m.map Prod.fst := by
  induction m with
  | nil => simp [ainsert, eq_comm]
  | cons p t ih =>
      obtain ⟨a, b⟩ := p
      by_cases ha : a = k
      · subst ha
        simp [ainsert, eq_comm]
      · simp only [ainsert, if_neg ha, List.map_cons, List.mem_cons, ih]
        tauto

theorem nodupKeys_ainsert {α β : Type} [DecidableEq α] (k : α) (v : β)
    {m : List (α × β)} (h : NodupKeys m) : NodupKeys (ainsert k v m) := by
  induction m with
  | nil => simp [ainsert, NodupKeys]
  | cons p t ih =>
      obtain ⟨a, b⟩ := p
      unfold NodupKeys at h ⊢
      simp only [List.map_cons, List.nodup_cons] at h
      by_cases ha : a = k
      · subst ha
        simpa [ainsert, h.1] using h.2
      · have := ih h.2
        simp only [ainsert, if_neg ha, List.map_cons, List.nodup_cons]
        refine ⟨?_, this⟩
        rw [mem_keys_ainsert]
        push_neg
        exact ⟨ha, h.1⟩

theorem aremove_sublist {α β : Type} [DecidableEq α] (k : α) (m : List (α × β)) :
    (aremove k m).Sublist m := by
  induction m with
  | nil => simp [aremove]
  | cons p t ih =>
      obtain ⟨a, b⟩ := p
      by_cases ha : a = k
      · simp only [aremove, if_pos ha]
        exact List.sublist_cons_self _ _
      · simp only [aremove, if_neg ha]
        exact ih.cons₂ _

theorem nodupKeys_aremove {α β : Type} [DecidableEq α] (k : α)
    {m : List (α × β)} (h : NodupKeys m) : NodupKeys (aremove k m) := by
  unfold NodupKeys at h ⊢
  exact ((aremove_sublist k m).map Prod.fst).nodup h

theorem aremove_length_le {α β : Type} [DecidableEq α] (k : α) (m : List (α × β)) :
    (aremove k m).length ≤ m.length :=
  (aremove_sublist k m).length_le

theorem ainsert_length_le {α β : Type} [DecidableEq α] (k : α) (v : β)
    (m : List (α × β)) : (ainsert k v m).length ≤ m.length + 1 := by
  induction m with
  | nil => simp [ainsert]
  | cons p t ih =>
      obtain ⟨a, b⟩ := p
      by_cases ha : a = k
      · simp [ainsert, ha]
      · simpa [ainsert, ha] using ih

/-! ## Concrete fixtures used by the witness theorems -/

/-- A sample lock-creation location. -/
def locW : Location := { path := "a.rs", line := 10, col := 5 }

/-- A sample guard-acquisition location. -/
def glW : Location := { path := "a.rs", line := 20, col := 9 }

/-- A state with `locW` registered as a `Mutex` and no guards yet. -/
def stRegW : GlobalState := (LockInfo.register .Mutex locW GlobalState.init).1

/-- A lock guard record pointing at `locW` / `glW` with index `0`. -/
def lockGuardW : LockGuard :=
  { lock_location := locW, guard_location := glW, guard_index := 0 }

/-- An unfinished wait guard record pointing at `locW` / `glW` with index `0`. -/
def waitGuardW : WaitGuard :=
  { lock_location := locW, guard_location := glW, guard_kind := .Lock,
    wait_index := 0, finished := false }

/-- The state after a contended attempt queued a wait guard at `glW`. -/
def stWaitW : GlobalState :=
  ((WaitGuard.new .Lock locW glW 3 stRegW).map Prod.fst).getD stRegW

/-- The wait guard minted by that contended attempt. -/
def waitGuardW2 : WaitGuard :=
  ((WaitGuard.new .Lock locW glW 3 stRegW).map Prod.snd).getD waitGuardW

/-- The `LockInfo` stored at `locW` while the wait guard is pending. -/
def liWaitW : LockInfo :=
  (alookup locW stWaitW.lock_infos).getD
    { kind := .Mutex, location := locW, known_guards := [] }

/-- The `GuardInfo` at `glW` while the wait guard is pending. -/
def giWaitW : GuardInfo :=
  (alookup glW liWaitW.known_guards).getD (GuardInfo.new .Lock glW)

/-- The state after a fast-path acquisition at `glW` (wait 2, acquired at 4). -/
def stHeldW : GlobalState :=
  ((LockGuard.new .Lock locW glW 2 4 stRegW).map Prod.fst).getD stRegW

/-- The lock guard produced by that fast-path acquisition. -/
def lockGuardW0 : LockGuard :=
  ((LockGuard.new .Lock locW glW 2 4 stRegW).map Prod.snd).getD lockGuardW

/-- The `LockInfo` stored at `locW` while that guard is held. -/
def liHeldW : LockInfo :=
  (alookup locW stHeldW.lock_infos).getD
    { kind := .Mutex, location := locW, known_guards := [] }

/-- The `GuardInfo` at `glW` while that guard is held. -/
def giHeldW : GuardInfo :=
  (alookup glW liHeldW.known_guards).getD (GuardInfo.new .Lock glW)

/-! ## Claims -/

/-- C8: a non-blocking `try_lock`/`try_read`/`try_write` call that fails
(would-block or poisoned) returns the failure to the caller unchanged,
produces no guard, creates no `WaitGuard`, and leaves the whole global state
(registry and counter, hence every `GuardInfo`'s `num_uses`, active uses,
waiting tasks and statistics) unchanged, for both the `std` and the
`parking_lot` backends. -/
theorem claim_c8 (ll gl : Location) (w n : Nat) (st : GlobalState) :
    stdMutex.try_lock .wouldBlock ll gl w n st = some (st, .error .wouldBlock) ∧
    stdMutex.try_lock .poisoned ll gl w n st = some (st, .error .poisoned) ∧
    plMutex.try_lock false ll gl w n st = some (st, none) := by
  refine ⟨rfl, rfl, ?_⟩
  simp [plMutex.try_lock]

/-- C10: dropping a `LockGuard` (or an unfinished `WaitGuard`) whose lock
`Location` is absent from the registry silently performs no accounting and no
error; a `LockGuard` drop aborts (`unwrap` panic) only when the `LockInfo`
exists but the guard-site entry or the active-use id is missing; in
particular any `LockGuard` drop right after `clear_lock_infos` is a silent
no-op. -/
theorem claim_c10 (lg : LockGuard) (wg : WaitGuard) (now : Nat) (st : GlobalState) :
    (alookup lg.lock_location st.lock_infos = none → LockGuard.drop lg now st = some st) ∧
    (wg.finished = false → alookup wg.lock_location st.lock_infos = none →
      WaitGuard.drop wg st = st) ∧
    (LockGuard.drop lg now st = none →
      ∃ li, alookup lg.lock_location st.lock_infos = some li ∧
        (alookup lg.guard_location li.known_guards = none ∨
          ∃ gi, alookup lg.guard_location li.known_guards = some gi ∧
            alookup lg.guard_index gi.active_uses = none)) ∧
    LockGuard.drop lg now (clear_lock_infos st) = some (clear_lock_infos st) := by
  refine ⟨?_, ?_, ?_, ?_⟩
  · intro h
    simp [LockGuard.drop, h]
  · intro hfin h
    simp [WaitGuard.drop, hfin, h]
  · intro h
    cases hll : alookup lg.lock_location st.lock_infos with
    | none => simp [LockGuard.drop, hll] at h
    | some li =>
        refine ⟨li, rfl, ?_⟩
        cases hgl : alookup lg.guard_location li.known_guards with
        | none => exact Or.inl rfl
        | some gi =>
            refine Or.inr ⟨gi, rfl, ?_⟩
            cases hid : alookup lg.guard_index gi.active_uses with
            | none => rfl
            | some t0 => simp [LockGuard.drop, hll, hgl, hid] at h
  · simp [LockGuard.drop, clear_lock_infos, alookup]

/-- Witness for C10: the empty registry makes both drops silent no-ops; the
state with only the lock registered (no guard site) makes the `LockGuard`
drop abort, exhibiting the missing guard entry. -/
theorem claim_c10_witness :
    LockGuard.drop lockGuardW 5 GlobalState.init = some GlobalState.init ∧
    WaitGuard.drop waitGuardW GlobalState.init = GlobalState.init ∧
    (∃ li, alookup lockGuardW.lock_location stRegW.lock_infos = some li ∧
      (alookup lockGuardW.guard_location li.known_guards = none ∨
        ∃ gi, alookup lockGuardW.guard_location li.known_guards = some gi ∧
          alookup lockGuardW.guard_index gi.active_uses = none)) ∧
    LockGuard.drop lockGuardW 5 (clear_lock_infos stRegW) =
      some (clear_lock_infos stRegW) :=
  ⟨(claim_c10 lockGuardW waitGuardW 5 GlobalState.init).1 (by decide),
    (claim_c10 lockGuardW waitGuardW 5 GlobalState.init).2.1 rfl (by decide),
    (claim_c10 lockGuardW waitGuardW 5 stRegW).2.2.1 (by decide),
    (claim_c10 lockGuardW waitGuardW 5 stRegW).2.2.2⟩

/-- C1: dropping a `WaitGuard` that was never converted into a `LockGuard`
removes exactly its waiting-task entry (keyed by its id) from its
`GuardInfo`, leaving `num_uses`, the active uses, both moving averages and
both maxima unchanged, as well as the counter and every other lock's entry;
no `LockGuard` is produced by a drop. -/
theorem claim_c1 (wg : WaitGuard) (st : GlobalState) (li : LockInfo) (gi : GuardInfo)
    (hfin : wg.finished = false)
    (hll : alookup wg.lock_location st.lock_infos = some li)
    (hgl : alookup wg.guard_location li.known_guards = some gi)
    (hnd : NodupKeys gi.waiting_tasks) :
    ∃ li' gi',
      alookup wg.lock_location (WaitGuard.drop wg st).lock_infos = some li' ∧
      alookup wg.guard_location li'.known_guards = some gi' ∧
      gi'.waiting_tasks = aremove wg.wait_index gi.waiting_tasks ∧
      alookup wg.wait_index gi'.waiting_tasks = none ∧
      gi'.num_uses = gi.num_uses ∧
      gi'.active_uses = gi.active_uses ∧
      gi'.avg_wait_time = gi.avg_wait_time ∧
      gi'.max_wait_time = gi.max_wait_time ∧
      gi'.avg_duration = gi.avg_duration ∧
      gi'.max_duration = gi.max_duration ∧
      (WaitGuard.drop wg st).guard_counter = st.guard_counter ∧
      (∀ l, l ≠ wg.lock_location →
        alookup l (WaitGuard.drop wg st).lock_infos = alookup l st.lock_infos) := by
  have hdrop : WaitGuard.drop wg st =
      { st with lock_infos := (ainsert wg.lock_location
          ({ li with known_guards := (ainsert wg.guard_location
              ({ gi with waiting_tasks := aremove wg.wait_index gi.waiting_tasks })
              li.known_guards) })
          st.lock_infos) } := by
    simp [WaitGuard.drop, hfin, hll, hgl]
  rw [hdrop]
  exact ⟨_, _, alookup_ainsert_self _ _ _, alookup_ainsert_self _ _ _, rfl,
    alookup_aremove_self _ hnd, rfl, rfl, rfl, rfl, rfl, rfl, rfl,
    fun l hl => alookup_ainsert_ne _ _ hl⟩

/-- Witness for C1: registering a lock, creating a wait guard at a fresh
guard site and dropping it. -/
theorem claim_c1_witness :
    ∃ li' gi',
      alookup waitGuardW2.lock_location (WaitGuard.drop waitGuardW2 stWaitW).lock_infos =
        some li' ∧
      alookup waitGuardW2.guard_location li'.known_guards = some gi' ∧
      gi'.waiting_tasks = aremove waitGuardW2.wait_index giWaitW.waiting_tasks ∧
      alookup waitGuardW2.wait_index gi'.waiting_tasks = none ∧
      gi'.num_uses = giWaitW.num_uses ∧
      gi'.active_uses = giWaitW.active_uses ∧
      gi'.avg_wait_time = giWaitW.avg_wait_time ∧
      gi'.max_wait_time = giWaitW.max_wait_time ∧
      gi'.avg_duration = giWaitW.avg_duration ∧
      gi'.max_duration = giWaitW.max_duration ∧
      (WaitGuard.drop waitGuardW2 stWaitW).guard_counter = stWaitW.guard_counter ∧
      (∀ l, l ≠ waitGuardW2.lock_location →
        alookup l (WaitGuard.drop waitGuardW2 stWaitW).lock_infos =
          alookup l stWaitW.lock_infos) :=
  claim_c1 waitGuardW2 stWaitW liWaitW giWaitW rfl (by decide) (by decide) (by decide)

/-- C2: dropping a produced `LockGuard` runs the release accounting: the hold
duration is the drop time minus the acquisition timestamp stored in the
active-use entry; that entry is removed by the guard's id; the duration is
folded into the hold-duration moving average and the running maximum is
raised when exceeded; nothing else of the `GuardInfo` changes (that this
happens exactly once per guard is Rust's scoped-drop guarantee, outside the
state model). -/
theorem claim_c2 (lg : LockGuard) (now : Nat) (st : GlobalState)
    (li : LockInfo) (gi : GuardInfo) (t0 : Nat)
    (hll : alookup lg.lock_location st.lock_infos = some li)
    (hgl : alookup lg.guard_location li.known_guards = some gi)
    (hid : alookup lg.guard_index gi.active_uses = some t0)
    (hnd : NodupKeys gi.active_uses) :
    ∃ st' li' gi',
      LockGuard.drop lg now st = some st' ∧
      alookup lg.lock_location st'.lock_infos = some li' ∧
      alookup lg.guard_location li'.known_guards = some gi' ∧
      gi'.active_uses = aremove lg.guard_index gi.active_uses ∧
      alookup lg.guard_index gi'.active_uses = none ∧
      gi'.avg_duration = gi.avg_duration.add_sample (now - t0) ∧
      gi'.max_duration =
        (if now - t0 > gi.max_duration then now - t0 else gi.max_duration) ∧
      gi'.num_uses = gi.num_uses ∧
      gi'.avg_wait_time = gi.avg_wait_time ∧
      gi'.max_wait_time = gi.max_wait_time ∧
      gi'.waiting_tasks = gi.waiting_tasks ∧
      st'.guard_counter = st.guard_counter := by
  have hdrop : LockGuard.drop lg now st =
      some { st with lock_infos := (ainsert lg.lock_location
          ({ li with known_guards := (ainsert lg.guard_location
              ({ gi with
                active_uses := aremove lg.guard_index gi.active_uses
                avg_duration := gi.avg_duration.add_sample (now - t0)
                max_duration :=
                  if now - t0 > gi.max_duration then now - t0 else gi.max_duration })
              li.known_guards) })
          st.lock_infos) } := by
    simp [LockGuard.drop, hll, hgl, hid]
  refine ⟨_, _, _, hdrop, alookup_ainsert_self _ _ _, alookup_ainsert_self _ _ _,
    rfl, alookup_aremove_self _ hnd, rfl, rfl, rfl, rfl, rfl, rfl, rfl⟩

/-- Witness for C2: dropping the lock guard produced by a fast-path
acquisition on a registered lock. -/
theorem claim_c2_witness :
    ∃ st' li' gi',
      LockGuard.drop lockGuardW0 9 stHeldW = some st' ∧
      alookup lockGuardW0.lock_location st'.lock_infos = some li' ∧
      alookup lockGuardW0.guard_location li'.known_guards = some gi' ∧
      gi'.active_uses = aremove lockGuardW0.guard_index giHeldW.active_uses ∧
      alookup lockGuardW0.guard_index gi'.active_uses = none ∧
      gi'.avg_duration = giHeldW.avg_duration.add_sample (9 - 4) ∧
      gi'.max_duration =
        (if 9 - 4 > giHeldW.max_duration then 9 - 4 else giHeldW.max_duration) ∧
      gi'.num_uses = giHeldW.num_uses ∧
      gi'.avg_wait_time = giHeldW.avg_wait_time ∧
      gi'.max_wait_time = giHeldW.max_wait_time ∧
      gi'.waiting_tasks = giHeldW.waiting_tasks ∧
      st'.guard_counter = stHeldW.guard_counter :=
  claim_c2 lockGuardW0 9 stHeldW liHeldW giHeldW 4 (by decide) (by decide) (by decide)
    (by decide)

/-- C3: converting a `WaitGuard` into a `LockGuard` after a successful
contended acquisition reuses the wait id unchanged, removes the waiting-task
entry under that id, inserts an active-use entry under the same id, bumps
`num_uses` by one, folds the measured wait time into the wait statistics, and
the consumed (finished) `WaitGuard`'s cancellation cleanup is a no-op on any
state. -/
theorem claim_c3 (wg : WaitGuard) (wait_time now : Nat) (st : GlobalState)
    (li : LockInfo) (gi : GuardInfo)
    (hll : alookup wg.lock_location st.lock_infos = some li)
    (hgl : alookup wg.guard_location li.known_guards = some gi)
    (hnd : NodupKeys gi.waiting_tasks) :
    ∃ st' lg li' gi',
      LockGuard.from_wait_guard wg wait_time now st = some (st', lg) ∧
      lg.guard_index = wg.wait_index ∧
      lg.lock_location = wg.lock_location ∧
      lg.guard_location = wg.guard_location ∧
      alookup wg.lock_location st'.lock_infos = some li' ∧
      alookup wg.guard_location li'.known_guards = some gi' ∧
      gi'.waiting_tasks = aremove wg.wait_index gi.waiting_tasks ∧
      alookup wg.wait_index gi'.waiting_tasks = none ∧
      alookup wg.wait_index gi'.active_uses = some now ∧
      gi'.num_uses = gi.num_uses + 1 ∧
      gi'.avg_wait_time = gi.avg_wait_time.add_sample wait_time ∧
      gi'.max_wait_time =
        (if wait_time > gi.max_wait_time then wait_time else gi.max_wait_time) ∧
      (∀ s, WaitGuard.drop (WaitGuard.finish wg) s = s) := by
  have hconv : LockGuard.from_wait_guard wg wait_time now st =
      some ({ st with lock_infos := (ainsert wg.lock_location
          ({ li with known_guards := (ainsert wg.guard_location
              ({ gi with
                waiting_tasks := aremove wg.wait_index gi.waiting_tasks
                num_uses := gi.num_uses + 1
                avg_wait_time := gi.avg_wait_time.add_sample wait_time
                max_wait_time :=
                  if wait_time > gi.max_wait_time then wait_time else gi.max_wait_time
                active_uses := ainsert wg.wait_index now gi.active_uses })
              li.known_guards) })
          st.lock_infos) },
        { lock_location := wg.lock_location
          guard_location := wg.guard_location
          guard_index := wg.wait_index }) := by
    simp [LockGuard.from_wait_guard, hll, hgl]
  refine ⟨_, _, _, _, hconv, rfl, rfl, rfl, alookup_ainsert_self _ _ _,
    alookup_ainsert_self _ _ _, rfl, alookup_aremove_self _ hnd,
    alookup_ainsert_self _ _ _, rfl, rfl, rfl, ?_⟩
  intro s
  simp [WaitGuard.drop, WaitGuard.finish]

/-- Witness for C3: converting a pending wait guard on a registered lock. -/
theorem claim_c3_witness :
    ∃ st' lg li' gi',
      LockGuard.from_wait_guard waitGuardW2 7 8 stWaitW = some (st', lg) ∧
      lg.guard_index = waitGuardW2.wait_index ∧
      lg.lock_location = waitGuardW2.lock_location ∧
      lg.guard_location = waitGuardW2.guard_location ∧
      alookup waitGuardW2.lock_location st'.lock_infos = some li' ∧
      alookup waitGuardW2.guard_location li'.known_guards = some gi' ∧
      gi'.waiting_tasks = aremove waitGuardW2.wait_index giWaitW.waiting_tasks ∧
      alookup waitGuardW2.wait_index gi'.waiting_tasks = none ∧
      alookup waitGuardW2.wait_index gi'.active_uses = some 8 ∧
      gi'.num_uses = giWaitW.num_uses + 1 ∧
      gi'.avg_wait_time = giWaitW.avg_wait_time.add_sample 7 ∧
      gi'.max_wait_time =
        (if 7 > giWaitW.max_wait_time then 7 else giWaitW.max_wait_time) ∧
      (∀ s, WaitGuard.drop (WaitGuard.finish waitGuardW2) s = s) :=
  claim_c3 waitGuardW2 7 8 stWaitW liWaitW giWaitW (by decide) (by decide) (by decide)

/-- C4: registration is idempotent per `Location`: on a well-formed registry
(unique keys, stored location equal to the key) the first `register` call
from a location returns that location, a second call (with any kind) changes
nothing — it returns the already-registered `LockInfo`'s location, which is
that same location, and the snapshot length is unchanged — and key uniqueness
(at most one `LockInfo` per `Location`) is preserved. -/
theorem claim_c4 (st : GlobalState) (loc : Location) (k1 k2 : LockKind)
    (hnd : NodupKeys st.lock_infos)
    (hwf : ∀ p ∈ st.lock_infos, p.2.location = p.1) :
    (LockInfo.register k1 loc st).2 = loc ∧
    LockInfo.register k2 loc (LockInfo.register k1 loc st).1 =
      ((LockInfo.register k1 loc st).1, loc) ∧
    (lock_snapshots (LockInfo.register k2 loc (LockInfo.register k1 loc st).1).1).length =
      (lock_snapshots (LockInfo.register k1 loc st).1).length ∧
    NodupKeys (LockInfo.register k1 loc st).1.lock_infos := by
  cases hl : alookup loc st.lock_infos with
  | none =>
      have h1 : LockInfo.register k1 loc st =
          ({ st with lock_infos :=
              (ainsert loc ({ kind := k1, location := loc, known_guards := [] })
                st.lock_infos) }, loc) := by
        simp [LockInfo.register, hl]
      have h2 : LockInfo.register k2 loc (LockInfo.register k1 loc st).1 =
          ((LockInfo.register k1 loc st).1, loc) := by
        rw [h1]
        simp [LockInfo.register, alookup_ainsert_self]
      refine ⟨by rw [h1], h2, by rw [h2], ?_⟩
      rw [h1]
      exact nodupKeys_ainsert _ _ hnd
  | some info =>
      have hloc : info.location = loc := hwf (loc, info) (alookup_mem hl)
      have h1 : LockInfo.register k1 loc st = (st, loc) := by
        simp [LockInfo.register, hl, hloc]
      have h2 : LockInfo.register k2 loc (LockInfo.register k1 loc st).1 =
          ((LockInfo.register k1 loc st).1, loc) := by
        rw [h1]
        simp [LockInfo.register, hl, hloc]
      refine ⟨by rw [h1], h2, by rw [h2], ?_⟩
      rw [h1]
      exact hnd

/-- Witness for C4: double registration from the same location on the empty
registry. -/
theorem claim_c4_witness :
    (LockInfo.register .Mutex locW GlobalState.init).2 = locW ∧
    LockInfo.register .Mutex locW (LockInfo.register .Mutex locW GlobalState.init).1 =
      ((LockInfo.register .Mutex locW GlobalState.init).1, locW) ∧
    (lock_snapshots (LockInfo.register .Mutex locW
        (LockInfo.register .Mutex locW GlobalState.init).1).1).length =
      (lock_snapshots (LockInfo.register .Mutex locW GlobalState.init).1).length ∧
    NodupKeys (LockInfo.register .Mutex locW GlobalState.init).1.lock_infos :=
  claim_c4 GlobalState.init locW .Mutex .Mutex (by decide) (by decide)

/-- C9: a blocking `lock` on which the native primitive reports poisoning
propagates the failure, produces no `LockGuard`, and updates no statistics:
when the fast-path attempt reports poisoning the state is untouched; when the
blocking acquisition after a contended fast path reports poisoning, the
`WaitGuard` minted for the attempt is cleaned up as in cancellation, so the
guard site's `GuardInfo` ends exactly as it started (only the id counter
advanced), and every other entry is untouched. -/
theorem claim_c9 (block_ok : Bool) (ll gl : Location) (fw sw nf ns : Nat)
    (st : GlobalState) (li : LockInfo) (gi : GuardInfo)
    (hll : alookup ll st.lock_infos = some li)
    (hgl : alookup gl li.known_guards = some gi)
    (hfresh : alookup st.guard_counter gi.waiting_tasks = none) :
    stdMutex.lock .poisoned block_ok ll gl fw sw nf ns st = some (st, .error ()) ∧
    ∃ st', stdMutex.lock .wouldBlock false ll gl fw sw nf ns st =
        some (st', .error ()) ∧
      st'.guard_counter = st.guard_counter + 1 ∧
      (∃ li', alookup ll st'.lock_infos = some li' ∧
        alookup gl li'.known_guards = some gi ∧
        (∀ g, g ≠ gl → alookup g li'.known_guards = alookup g li.known_guards)) ∧
      (∀ l, l ≠ ll → alookup l st'.lock_infos = alookup l st.lock_infos) := by
  refine ⟨rfl, ?_⟩
  have hwn : WaitGuard.new .Lock ll gl nf st =
      some ({ st with
          lock_infos := (ainsert ll
            ({ li with known_guards := (ainsert gl
                ({ gi with waiting_tasks := ainsert st.guard_counter nf gi.waiting_tasks })
                li.known_guards) })
            st.lock_infos)
          guard_counter := st.guard_counter + 1 },
        { lock_location := ll, guard_location := gl, guard_kind := .Lock,
          wait_index := st.guard_counter, finished := false }) := by
    simp [WaitGuard.new, hll, hgl]
  have hback : aremove st.guard_counter (ainsert st.guard_counter nf gi.waiting_tasks) =
      gi.waiting_tasks := aremove_ainsert _ _ hfresh
  have hlock : stdMutex.lock .wouldBlock false ll gl fw sw nf ns st =
      some (WaitGuard.drop
        ({ lock_location := ll, guard_location := gl, guard_kind := .Lock,
            wait_index := st.guard_counter, finished := false })
        ({ st with
          lock_infos := (ainsert ll
            ({ li with known_guards := (ainsert gl
                ({ gi with waiting_tasks := ainsert st.guard_counter nf gi.waiting_tasks })
                li.known_guards) })
            st.lock_infos)
          guard_counter := st.guard_counter + 1 }), .error ()) := by
    simp [stdMutex.lock, hwn]
  rw [hlock]
  have hdrop : WaitGuard.drop
      ({ lock_location := ll, guard_location := gl, guard_kind := .Lock,
          wait_index := st.guard_counter, finished := false })
      ({ st with
        lock_infos := (ainsert ll
          ({ li with known_guards := (ainsert gl
              ({ gi with waiting_tasks := ainsert st.guard_counter nf gi.waiting_tasks })
              li.known_guards) })
          st.lock_infos)
        guard_counter := st.guard_counter + 1 }) =
      { st with
        lock_infos := (ainsert ll
          ({ li with known_guards := (ainsert gl gi
              (ainsert gl
                ({ gi with waiting_tasks := ainsert st.guard_counter nf gi.waiting_tasks })
                li.known_guards)) })
          (ainsert ll
            ({ li with known_guards := (ainsert gl
                ({ gi with waiting_tasks := ainsert st.guard_counter nf gi.waiting_tasks })
                li.known_guards) })
            st.lock_infos))
        guard_counter := st.guard_counter + 1 } := by
    simp [WaitGuard.drop, alookup_ainsert_self, hback]
  rw [hdrop]
  refine ⟨_, rfl, rfl, ⟨_, alookup_ainsert_self _ _ _, alookup_ainsert_self _ _ _, ?_⟩, ?_⟩
  · intro g hg
    rw [alookup_ainsert_ne _ _ hg, alookup_ainsert_ne _ _ hg]
  · intro l hl
    rw [alookup_ainsert_ne _ _ hl, alookup_ainsert_ne _ _ hl]

/-- Witness for C9: poisoning reported while a wait guard is pending on the
registered lock. -/
theorem claim_c9_witness :
    stdMutex.lock .poisoned true locW glW 1 2 3 4 stWaitW = some (stWaitW, .error ()) ∧
    ∃ st', stdMutex.lock .wouldBlock false locW glW 1 2 3 4 stWaitW =
        some (st', .error ()) ∧
      st'.guard_counter = stWaitW.guard_counter + 1 ∧
      (∃ li', alookup locW st'.lock_infos = some li' ∧
        alookup glW li'.known_guards = some giWaitW ∧
        (∀ g, g ≠ glW → alookup g li'.known_guards = alookup g liWaitW.known_guards)) ∧
      (∀ l, l ≠ locW → alookup l st'.lock_infos = alookup l stWaitW.lock_infos) :=
  claim_c9 true locW glW 1 2 3 4 stWaitW liWaitW giWaitW (by decide) (by decide)
    (by decide)

/-! ## Trace invariants: effect of one step on the per-site measures -/

theorem step_measures (op : Op) (st st' : GlobalState) (ll gl : Location)
    (h : op.step st = some st') :
    numUsesAt ll gl st' = numUsesAt ll gl st + (if producesAt ll gl op then 1 else 0) ∧
    activeAt ll gl st' ≤ activeAt ll gl st + (if producesAt ll gl op then 1 else 0) := by
  cases op with
  | register kind loc =>
      simp only [Op.step, Option.some_inj] at h
      subst h
      simp only [producesAt, if_neg Bool.false_ne_true]
      cases hl : alookup loc st.lock_infos with
      | some info => simp [LockInfo.register, hl, numUsesAt, activeAt]
      | none =>
          by_cases hL : ll = loc
          · subst hL
            simp [LockInfo.register, hl, numUsesAt, activeAt, alookup_ainsert_self, alookup]
          · simp [LockInfo.register, hl, numUsesAt, activeAt, alookup_ainsert_ne _ _ hL]
  | guardNew kind ll' gl' w n =>
      simp only [Op.step] at h
      cases hll' : alookup ll' st.lock_infos with
      | none => simp [LockGuard.new, hll'] at h
      | some li =>
          simp only [LockGuard.new, hll', Option.map_some', Option.some_inj] at h
          subst h
          by_cases hL : ll' = ll
          · subst hL
            by_cases hG : gl' = gl
            · subst hG
              have hp : producesAt ll' gl' (Op.guardNew kind ll' gl' w n) = true := by
                simp [producesAt]
              rw [hp, if_pos rfl]
              cases hg0 : alookup gl' li.known_guards with
              | none =>
                  simp [numUsesAt, activeAt, alookup_ainsert_self, hll', hg0,
                    GuardInfo.new, ainsert]
              | some g =>
                  constructor
                  · simp [numUsesAt, alookup_ainsert_self, hll', hg0]
                  · simp only [activeAt, alookup_ainsert_self, hll', hg0, Option.getD_some]
                    exact ainsert_length_le _ _ _
            · have hp : producesAt ll' gl (Op.guardNew kind ll' gl' w n) = false := by
                simp [producesAt, hG]
              rw [hp, if_neg Bool.false_ne_true]
              simp [numUsesAt, activeAt, alookup_ainsert_self, hll',
                alookup_ainsert_ne _ _ (fun e : gl = gl' => hG e.symm)]
          · have hp : producesAt ll gl (Op.guardNew kind ll' gl' w n) = false := by
              simp [producesAt]
              intro e
              exact absurd e hL
            rw [hp, if_neg Bool.false_ne_true]
            simp [numUsesAt, activeAt,
              alookup_ainsert_ne _ _ (fun e : ll = ll' => hL e.symm)]
  | waitNew kind ll' gl' n =>
      simp only [Op.step] at h
      cases hll' : alookup ll' st.lock_infos with
      | none => simp [WaitGuard.new, hll'] at h
      | some li =>
          simp only [WaitGuard.new, hll', Option.map_some', Option.some_inj] at h
          subst h
          simp only [producesAt, if_neg Bool.false_ne_true]
          by_cases hL : ll' = ll
          · subst hL
            by_cases hG : gl' = gl
            · subst hG
              cases hg0 : alookup gl' li.known_guards with
              | none =>
                  simp [numUsesAt, activeAt, alookup_ainsert_self, hll', hg0, GuardInfo.new]
              | some g =>
                  simp [numUsesAt, activeAt, alookup_ainsert_self, hll', hg0]
            · simp [numUsesAt, activeAt, alookup_ainsert_self, hll',
                alookup_ainsert_ne _ _ (fun e : gl = gl' => hG e.symm)]
          · simp [numUsesAt, activeAt,
              alookup_ainsert_ne _ _ (fun e : ll = ll' => hL e.symm)]
  | fromWait wg w n =>
      simp only [Op.step] at h
      cases hll' : alookup wg.lock_location st.lock_infos with
      | none => simp [LockGuard.from_wait_guard, hll'] at h
      | some li =>
          simp only [LockGuard.from_wait_guard, hll', Option.map_some', Option.some_inj] at h
          subst h
          by_cases hL : wg.lock_location = ll
          · by_cases hG : wg.guard_location = gl
            · have hp : producesAt ll gl (Op.fromWait wg w n) = true := by
                simp [producesAt, hL, hG]
              rw [hp, if_pos rfl]
              rw [← hL, ← hG]
              cases hg0 : alookup wg.guard_location li.known_guards with
              | none =>
                  simp [numUsesAt, activeAt, alookup_ainsert_self, hll', hg0,
                    GuardInfo.new, ainsert, aremove]
              | some g =>
                  constructor
                  · simp [numUsesAt, alookup_ainsert_self, hll', hg0]
                  · simp only [activeAt, alookup_ainsert_self, hll', hg0, Option.getD_some]
                    exact ainsert_length_le _ _ _
            · have hp : producesAt ll gl (Op.fromWait wg w n) = false := by
                simp [producesAt]
                intro _
                exact hG
              rw [hp, if_neg Bool.false_ne_true]
              rw [← hL]
              simp [numUsesAt, activeAt, alookup_ainsert_self, hll',
                alookup_ainsert_ne _ _ (fun e : gl = wg.guard_location => hG e.symm)]
          · have hp : producesAt ll gl (Op.fromWait wg w n) = false := by
              simp [producesAt]
              intro e
              exact absurd e hL
            rw [hp, if_neg Bool.false_ne_true]
            simp [numUsesAt, activeAt,
              alookup_ainsert_ne _ _ (fun e : ll = wg.lock_location => hL e.symm)]
  | guardDrop lg n =>
      simp only [Op.step] at h
      simp only [producesAt, if_neg Bool.false_ne_true]
      cases hll' : alookup lg.lock_location st.lock_infos with
      | none =>
          simp only [LockGuard.drop, hll', Option.some_inj] at h
          subst h
          simp
      | some li =>
          cases hgl' : alookup lg.guard_location li.known_guards with
          | none => simp [LockGuard.drop, hll', hgl'] at h
          | some gi =>
              cases hid : alookup lg.guard_index gi.active_uses with
              | none => simp [LockGuard.drop, hll', hgl', hid] at h
              | some t0 =>
                  simp only [LockGuard.drop, hll', hgl', hid, Option.some_inj] at h
                  subst h
                  by_cases hL : lg.lock_location = ll
                  · by_cases hG : lg.guard_location = gl
                    · rw [← hL, ← hG]
                      constructor
                      · simp [numUsesAt, alookup_ainsert_self, hll', hgl']
                      · simp only [activeAt, alookup_ainsert_self, hll', hgl']
                        exact le_trans (aremove_length_le _ _) (Nat.le_add_right _ _)
                    · rw [← hL]
                      simp [numUsesAt, activeAt, alookup_ainsert_self, hll',
                        alookup_ainsert_ne _ _ (fun e : gl = lg.guard_location => hG e.symm)]
                  · simp [numUsesAt, activeAt,
                      alookup_ainsert_ne _ _ (fun e : ll = lg.lock_location => hL e.symm)]
  | waitDrop wg =>
      simp only [Op.step, Option.some_inj] at h
      subst h
      simp only [producesAt, if_neg Bool.false_ne_true]
      by_cases hfin : wg.finished
      · simp [WaitGuard.drop, hfin]
      · cases hll' : alookup wg.lock_location st.lock_infos with
        | none => simp [WaitGuard.drop, hfin, hll']
        | some li =>
            cases hgl' : alookup wg.guard_location li.known_guards with
            | none => simp [WaitGuard.drop, hfin, hll', hgl']
            | some gi =>
                have hd : WaitGuard.drop wg st =
                    { st with lock_infos := (ainsert wg.lock_location
                        ({ li with known_guards := (ainsert wg.guard_location
                            ({ gi with waiting_tasks :=
                                aremove wg.wait_index gi.waiting_tasks })
                            li.known_guards) })
                        st.lock_infos) } := by
                  simp [WaitGuard.drop, hfin, hll', hgl']
                rw [hd]
                by_cases hL : wg.lock_location = ll
                · by_cases hG : wg.guard_location = gl
                  · rw [← hL, ← hG]
                    simp [numUsesAt, activeAt, alookup_ainsert_self, hll', hgl']
                  · rw [← hL]
                    simp [numUsesAt, activeAt, alookup_ainsert_self, hll',
                      alookup_ainsert_ne _ _ (fun e : gl = wg.guard_location => hG e.symm)]
                · simp [numUsesAt, activeAt,
                    alookup_ainsert_ne _ _ (fun e : ll = wg.lock_location => hL e.symm)]

theorem runOps_append (a b : List Op) (st : GlobalState) :
    runOps (a ++ b) st =
      match runOps a st with
      | none => none
      | some st1 => runOps b st1 := by
  induction a generalizing st with
  | nil => simp [runOps]
  | cons op t ih =>
      simp only [List.cons_append, runOps]
      cases op.step st with
      | none => rfl
      | some st1 => exact ih st1

theorem countProduces_cons (ll gl : Location) (op : Op) (ops : List Op) :
    countProduces ll gl (op :: ops) =
      (if producesAt ll gl op then 1 else 0) + countProduces ll gl ops := by
  by_cases hp : producesAt ll gl op
  · simp [countProduces, List.filter, hp, Nat.add_comm]
  · simp [countProduces, List.filter, hp]

theorem runOps_measures (ops : List Op) : ∀ st st', runOps ops st = some st' →
    ∀ ll gl,
      numUsesAt ll gl st' = numUsesAt ll gl st + countProduces ll gl ops ∧
      activeAt ll gl st' ≤ activeAt ll gl st + countProduces ll gl ops := by
  induction ops with
  | nil =>
      intro st st' h ll gl
      simp only [runOps, Option.some_inj] at h
      subst h
      simp [countProduces, List.filter]
  | cons op t ih =>
      intro st st' h ll gl
      simp only [runOps] at h
      cases hs : op.step st with
      | none => rw [hs] at h; cases h
      | some st1 =>
          rw [hs] at h
          have hstep := step_measures op st st1 ll gl hs
          have htail := ih st1 st' h ll gl
          rw [countProduces_cons]
          by_cases hp : producesAt ll gl op
          · rw [if_pos hp] at hstep ⊢
            omega
          · rw [if_neg hp] at hstep ⊢
            omega

/-- C6: along any panic-free trace of lifecycle operations from the initial
state, each guard site's `num_uses` equals the number of `LockGuard`s
successfully produced there (fast-path creations plus wait-guard
conversions), the number of active-use entries never exceeds `num_uses`, and
`num_uses` never decreases (its value after any prefix of the trace is at
most its final value). -/
theorem claim_c6 (ops : List Op) (ll gl : Location) (st : GlobalState)
    (h : runOps ops GlobalState.init = some st) :
    numUsesAt ll gl st = countProduces ll gl ops ∧
    activeAt ll gl st ≤ numUsesAt ll gl st ∧
    (∀ ops1 ops2 st1, ops = ops1 ++ ops2 → runOps ops1 GlobalState.init = some st1 →
      numUsesAt ll gl st1 ≤ numUsesAt ll gl st) := by
  have hinit : numUsesAt ll gl GlobalState.init = 0 ∧ activeAt ll gl GlobalState.init = 0 := by
    simp [numUsesAt, activeAt, GlobalState.init, alookup]
  obtain ⟨hn, ha⟩ := runOps_measures ops GlobalState.init st h ll gl
  refine ⟨by omega, by omega, ?_⟩
  intro ops1 ops2 st1 heq h1
  subst heq
  rw [runOps_append, h1] at h
  obtain ⟨hn2, -⟩ := runOps_measures ops2 st1 st h ll gl
  omega

/-- Operation trace used by the C6 witness: register, one fast-path
acquisition, one contended acquisition converted after waiting, and a drop. -/
def opsC6W : List Op :=
  [Op.register .Mutex locW,
    Op.guardNew .Lock locW glW 2 4,
    Op.waitNew .Lock locW glW 5,
    Op.fromWait ({ lock_location := locW, guard_location := glW, guard_kind := .Lock,
                   wait_index := 1, finished := false }) 3 8,
    Op.guardDrop ({ lock_location := locW, guard_location := glW, guard_index := 0 }) 9]

/-- The state reached by the C6 witness trace. -/
def stC6W : GlobalState := (runOps opsC6W GlobalState.init).getD GlobalState.init

/-- Witness for C6: on the concrete trace, `num_uses` is the number of
produced guards and the active count stays below it. -/
theorem claim_c6_witness :
    numUsesAt locW glW stC6W = countProduces locW glW opsC6W ∧
    activeAt locW glW stC6W ≤ numUsesAt locW glW stC6W ∧
    (∀ ops1 ops2 st1, opsC6W = ops1 ++ ops2 →
      runOps ops1 GlobalState.init = some st1 →
      numUsesAt locW glW st1 ≤ numUsesAt locW glW stC6W) :=
  claim_c6 opsC6W locW glW stC6W (by decide)

theorem step_mints (op : Op) (st st' : GlobalState) (h : op.step st = some st') :
    (op.mintsOf st = [] ∧ st'.guard_counter = st.guard_counter) ∨
    (op.mintsOf st = [st.guard_counter] ∧ st'.guard_counter = st.guard_counter + 1) := by
  cases op with
  | register kind loc =>
      left
      simp only [Op.step, Option.some_inj] at h
      subst h
      refine ⟨rfl, ?_⟩
      cases hl : alookup loc st.lock_infos <;> simp [LockInfo.register, hl]
  | guardNew kind ll gl w n =>
      simp only [Op.step] at h
      cases hll : alookup ll st.lock_infos with
      | none => simp [LockGuard.new, hll] at h
      | some li =>
          right
          simp only [LockGuard.new, hll, Option.map_some', Option.some_inj] at h
          subst h
          exact ⟨by simp [Op.mintsOf, LockGuard.new, hll], rfl⟩
  | waitNew kind ll gl n =>
      simp only [Op.step] at h
      cases hll : alookup ll st.lock_infos with
      | none => simp [WaitGuard.new, hll] at h
      | some li =>
          right
          simp only [WaitGuard.new, hll, Option.map_some', Option.some_inj] at h
          subst h
          exact ⟨by simp [Op.mintsOf, WaitGuard.new, hll], rfl⟩
  | fromWait wg w n =>
      left
      simp only [Op.step] at h
      cases hll : alookup wg.lock_location st.lock_infos with
      | none => simp [LockGuard.from_wait_guard, hll] at h
      | some li =>
          simp only [LockGuard.from_wait_guard, hll, Option.map_some', Option.some_inj] at h
          subst h
          exact ⟨rfl, rfl⟩
  | guardDrop lg n =>
      left
      refine ⟨rfl, ?_⟩
      simp only [Op.step] at h
      cases hll : alookup lg.lock_location st.lock_infos with
      | none =>
          simp only [LockGuard.drop, hll, Option.some_inj] at h
          subst h
          rfl
      | some li =>
          cases hgl : alookup lg.guard_location li.known_guards with
          | none => simp [LockGuard.drop, hll, hgl] at h
          | some gi =>
              cases hid : alookup lg.guard_index gi.active_uses with
              | none => simp [LockGuard.drop, hll, hgl, hid] at h
              | some t0 =>
                  simp only [LockGuard.drop, hll, hgl, hid, Option.some_inj] at h
                  subst h
                  rfl
  | waitDrop wg =>
      left
      simp only [Op.step, Option.some_inj] at h
      subst h
      refine ⟨rfl, ?_⟩
      by_cases hfin : wg.finished
      · simp [WaitGuard.drop, hfin]
      · cases hll : alookup wg.lock_location st.lock_infos with
        | none => simp [WaitGuard.drop, hfin, hll]
        | some li =>
            cases hgl : alookup wg.guard_location li.known_guards with
            | none => simp [WaitGuard.drop, hfin, hll, hgl]
            | some gi => simp [WaitGuard.drop, hfin, hll, hgl]

theorem runMint_spec (ops : List Op) : ∀ st st' ids, runMint ops st = some (st', ids) →
    List.Pairwise (· < ·) ids ∧
    (∀ i ∈ ids, st.guard_counter ≤ i ∧ i < st'.guard_counter) ∧
    st.guard_counter ≤ st'.guard_counter := by
  induction ops with
  | nil =>
      intro st st' ids h
      simp only [runMint, Option.some_inj, Prod.mk.injEq] at h
      obtain ⟨rfl, rfl⟩ := h
      simp
  | cons op t ih =>
      intro st st' ids h
      simp only [runMint] at h
      cases hs : op.step st with
      | none => rw [hs] at h; cases h
      | some st1 =>
          rw [hs] at h
          have h' : Option.map (fun p => (p.1, Op.mintsOf st op ++ p.2)) (runMint t st1) =
              some (st', ids) := h
          cases hr : runMint t st1 with
          | none => rw [hr] at h'; cases h'
          | some p =>
              obtain ⟨st2, ids2⟩ := p
              rw [hr] at h'
              simp only [Option.map_some', Option.some_inj, Prod.mk.injEq] at h'
              obtain ⟨rfl, rfl⟩ := h'
              obtain ⟨hpair, hbound, hle⟩ := ih st1 st2 ids2 hr
              rcases step_mints op st st1 hs with ⟨hm, hc⟩ | ⟨hm, hc⟩
              · rw [hm, List.nil_append]
                refine ⟨hpair, ?_, by omega⟩
                intro i hi
                have hb := hbound i hi
                omega
              · rw [hm, List.singleton_append]
                refine ⟨?_, ?_, by omega⟩
                · refine List.Pairwise.cons ?_ hpair
                  intro i hi
                  have hb := (hbound i hi).1
                  omega
                · intro i hi
                  rcases List.mem_cons.mp hi with rfl | hi'
                  · omega
                  · have hb := hbound i hi'
                    omega

/-- C7: every id is minted from the single process-wide counter, so along any
panic-free trace the minted ids are strictly increasing — in particular
pairwise distinct — all at least the starting counter value and below the
final one, and the counter itself never decreases. -/
theorem claim_c7 (ops : List Op) (st0 st : GlobalState) (ids : List Nat)
    (h : runMint ops st0 = some (st, ids)) :
    List.Pairwise (· < ·) ids ∧
    ids.Nodup ∧
    (∀ i ∈ ids, st0.guard_counter ≤ i ∧ i < st.guard_counter) ∧
    st0.guard_counter ≤ st.guard_counter := by
  obtain ⟨hpair, hbound, hle⟩ := runMint_spec ops st0 st ids h
  exact ⟨hpair, hpair.imp Nat.ne_of_lt, hbound, hle⟩

/-- Operation trace used by the C7 witness: one fast-path id and one waiting
id are minted. -/
def opsC7W : List Op :=
  [Op.register .Mutex locW,
    Op.guardNew .Lock locW glW 2 4,
    Op.waitNew .Lock locW glW 5]

/-- Result of running the C7 witness trace with id collection. -/
def mintResW : GlobalState × List Nat :=
  (runMint opsC7W GlobalState.init).getD (GlobalState.init, [])

/-- Witness for C7: the two ids minted by the concrete trace are strictly
increasing and within the counter's range. -/
theorem claim_c7_witness :
    List.Pairwise (· < ·) mintResW.2 ∧
    mintResW.2.Nodup ∧
    (∀ i ∈ mintResW.2, GlobalState.init.guard_counter ≤ i ∧
      i < mintResW.1.guard_counter) ∧
    GlobalState.init.guard_counter ≤ mintResW.1.guard_counter :=
  claim_c7 opsC7W GlobalState.init mintResW.1 mintResW.2 (by decide)

/-! ## Moving-average analysis

The windowed behaviour of `SingleSumSMA` is characterized against the full
sample history: after feeding a sample list, the buffer holds the most recent
`WINDOW` samples (circularly), the running sum is the sum of that window, and
the average is the window's integer mean. -/

/-- The most recent window-sized subsequence of a sample history. -/
def lastWin (xs : List Nat) : List Nat := xs.drop (xs.length - WINDOW)

/-- Feed a whole sample history into a freshly zeroed moving average. -/
def feedAll (xs : List Nat) : SingleSumSMA :=
  xs.foldl SingleSumSMA.add_sample SingleSumSMA.from_zero

/-- What buffer slot `j` holds after feeding `xs`: the latest sample whose
position is congruent to `j` modulo `WINDOW`, or the initial zero. -/
def slotVal (xs : List Nat) (j : Nat) : Nat :=
  if j < xs.length then xs.getD (j + WINDOW * ((xs.length - j - 1) / WINDOW)) 0 else 0

theorem getD_set_self (l : List Nat) (i a : Nat) (h : i < l.length) :
    (l.set i a).getD i 0 = a := by
  have h' : i < (l.set i a).length := by simpa using h
  rw [List.getD_eq_getElem _ _ h', List.getElem_set]
  simp

theorem getD_set_ne (l : List Nat) (i j a : Nat) (h : i ≠ j) (hj : j < l.length) :
    (l.set i a).getD j 0 = l.getD j 0 := by
  have h' : j < (l.set i a).length := by simpa using hj
  rw [List.getD_eq_getElem _ _ h', List.getD_eq_getElem l 0 hj, List.getElem_set]
  simp [h]

theorem getD_replicate_zero (n j : Nat) : (List.replicate n (0 : Nat)).getD j 0 = 0 := by
  rcases Nat.lt_or_ge j n with h | h
  · rw [List.getD_eq_getElem _ _ (by simpa using h)]
    exact List.getElem_replicate _ _
  · exact List.getD_eq_default _ _ (by simpa using h)

theorem slotVal_at_index (xs : List Nat) :
    slotVal xs (xs.length % WINDOW) =
      if WINDOW ≤ xs.length then xs.getD (xs.length - WINDOW) 0 else 0 := by
  unfold slotVal WINDOW
  by_cases h : 50 ≤ xs.length
  · have h1 : xs.length % 50 < xs.length := by omega
    rw [if_pos h1, if_pos h]
    have hidx : xs.length % 50 + 50 * ((xs.length - xs.length % 50 - 1) / 50) =
        xs.length - 50 := by omega
    rw [hidx]
  · have h1 : ¬ xs.length % 50 < xs.length := by omega
    rw [if_neg h1, if_neg h]

theorem slotVal_snoc_self (xs : List Nat) (a : Nat) :
    slotVal (xs ++ [a]) (xs.length % WINDOW) = a := by
  unfold slotVal WINDOW
  simp only [List.length_append, List.length_singleton]
  have h1 : xs.length % 50 < xs.length + 1 := by omega
  rw [if_pos h1]
  have hidx : xs.length % 50 + 50 * ((xs.length + 1 - xs.length % 50 - 1) / 50) =
      xs.length := by omega
  rw [hidx, List.getD_append_right xs [a] 0 _ (Nat.le_refl _)]
  simp

theorem slotVal_snoc_ne (xs : List Nat) (a : Nat) (j : Nat) (hj : j < WINDOW)
    (hne : j ≠ xs.length % WINDOW) : slotVal (xs ++ [a]) j = slotVal xs j := by
  unfold WINDOW at hj hne
  unfold slotVal WINDOW
  simp only [List.length_append, List.length_singleton]
  by_cases h3 : j < xs.length
  · rw [if_pos (by omega), if_pos h3]
    have heq : j + 50 * ((xs.length + 1 - j - 1) / 50) =
        j + 50 * ((xs.length - j - 1) / 50) := by omega
    rw [heq]
    have hlt : j + 50 * ((xs.length - j - 1) / 50) < xs.length := by omega
    rw [List.getD_append xs [a] 0 _ hlt]
  · have h4 : ¬ j < xs.length + 1 := by omega
    rw [if_neg h4, if_neg h3]

theorem feedAll_inv (xs : List Nat) :
    (feedAll xs).samples.length = WINDOW ∧
    (feedAll xs).index = xs.length % WINDOW ∧
    (feedAll xs).sampleCount = min xs.length WINDOW ∧
    (feedAll xs).sum = (lastWin xs).sum ∧
    ∀ j, j < WINDOW → (feedAll xs).samples.getD j 0 = slotVal xs j := by
  induction xs using List.reverseRecOn with
  | nil =>
      refine ⟨by simp [feedAll, SingleSumSMA.from_zero], rfl, rfl,
        by simp [feedAll, SingleSumSMA.from_zero, lastWin], ?_⟩
      intro j hj
      simp only [feedAll, List.foldl_nil, SingleSumSMA.from_zero]
      rw [getD_replicate_zero]
      simp [slotVal]
  | append_singleton xs a ih =>
      obtain ⟨hlen, hidx, hcnt, hsum, hslots⟩ := ih
      have hfeed : feedAll (xs ++ [a]) = (feedAll xs).add_sample a := by
        simp [feedAll, List.foldl_append]
      rw [hfeed]
      unfold SingleSumSMA.add_sample
      refine ⟨by simpa using hlen, ?_, ?_, ?_, ?_⟩
      · simp only [List.length_append, List.length_singleton]
        rw [hidx]
        unfold WINDOW
        omega
      · simp only [List.length_append, List.length_singleton]
        rw [hcnt]
        unfold WINDOW
        omega
      · simp only
        rw [hsum, hidx, hslots (xs.length % WINDOW) (by unfold WINDOW; omega),
          slotVal_at_index]
        by_cases h : WINDOW ≤ xs.length
        · rw [if_pos h]
          unfold lastWin WINDOW at *
          simp only [List.length_append, List.length_singleton]
          rw [List.drop_append_eq_append_drop, List.sum_append]
          have hz : (xs.length + 1 - 50) - xs.length = 0 := by omega
          rw [hz]
          simp only [List.drop_zero, List.sum_cons, List.sum_nil]
          have hdrop : xs.drop (xs.length - 50) =
              xs.getD (xs.length - 50) 0 :: xs.drop (xs.length - 50 + 1) := by
            rw [List.drop_eq_getElem_cons (by omega),
              List.getD_eq_getElem xs 0 (by omega)]
          rw [hdrop]
          have hix : xs.length - 50 + 1 = xs.length + 1 - 50 := by omega
          rw [hix]
          simp only [List.sum_cons]
          omega
        · rw [if_neg h]
          unfold lastWin WINDOW at *
          simp only [List.length_append, List.length_singleton]
          have h1 : xs.length - 50 = 0 := by omega
          have h2 : xs.length + 1 - 50 = 0 := by omega
          rw [h1, h2]
          simp [List.sum_append]
      · intro j hj
        by_cases hje : j = xs.length % WINDOW
        · subst hje
          rw [slotVal_snoc_self, hidx]
          exact getD_set_self _ _ _ (by rw [hlen]; unfold WINDOW; omega)
        · rw [slotVal_snoc_ne xs a j hj hje, hidx,
            getD_set_ne _ _ _ _ (fun e => hje e.symm) (by rw [hlen]; exact hj)]
          exact hslots j hj

theorem feedAll_get_average (xs : List Nat) (h : xs ≠ []) :
    (feedAll xs).get_average = (lastWin xs).sum / (lastWin xs).length := by
  obtain ⟨-, -, hcnt, hsum, -⟩ := feedAll_inv xs
  have hpos : 0 < xs.length := List.length_pos.mpr h
  have hlen : (lastWin xs).length = min xs.length WINDOW := by
    unfold lastWin
    rw [List.length_drop]
    omega
  unfold SingleSumSMA.get_average
  rw [hcnt, hsum, hlen]
  rw [if_neg (by unfold WINDOW; omega)]

theorem foldl_max_if (xs : List Nat) : ∀ m : Nat,
    xs.foldl (fun m s => if s > m then s else m) m = xs.foldl max m := by
  induction xs with
  | nil => intro m; rfl
  | cons x t ih =>
      intro m
      simp only [List.foldl_cons]
      have hx : (if x > m then x else m) = max m x := by
        split_ifs <;> omega
      rw [hx]
      exact ih (max m x)

theorem runFeed_stats (k : GuardKind) (ll gl : Location) (samples : List Nat) :
    ∀ st li gi, alookup ll st.lock_infos = some li →
      alookup gl li.known_guards = some gi →
      ∃ st' li' gi',
        runOps (samples.map (fun s => Op.guardNew k ll gl s 0)) st = some st' ∧
        alookup ll st'.lock_infos = some li' ∧
        alookup gl li'.known_guards = some gi' ∧
        gi'.avg_wait_time = samples.foldl SingleSumSMA.add_sample gi.avg_wait_time ∧
        gi'.max_wait_time =
          samples.foldl (fun m s => if s > m then s else m) gi.max_wait_time := by
  induction samples with
  | nil =>
      intro st li gi h1 h2
      exact ⟨st, li, gi, rfl, h1, h2, rfl, rfl⟩
  | cons s rest ih =>
      intro st li gi h1 h2
      have hnew : LockGuard.new k ll gl s 0 st =
          some ({ st with
              lock_infos := (ainsert ll
                ({ li with known_guards := (ainsert gl
                    ({ gi with
                      num_uses := gi.num_uses + 1
                      avg_wait_time := gi.avg_wait_time.add_sample s
                      max_wait_time := if s > gi.max_wait_time then s else gi.max_wait_time
                      active_uses := ainsert st.guard_counter 0 gi.active_uses })
                    li.known_guards) })
                st.lock_infos)
              guard_counter := st.guard_counter + 1 },
            { lock_location := ll, guard_location := gl,
              guard_index := st.guard_counter }) := by
        simp [LockGuard.new, h1, h2]
      obtain ⟨st', li', gi', hrun, ha, hb, havg, hmax⟩ :=
        ih ({ st with
              lock_infos := (ainsert ll
                ({ li with known_guards := (ainsert gl
                    ({ gi with
                      num_uses := gi.num_uses + 1
                      avg_wait_time := gi.avg_wait_time.add_sample s
                      max_wait_time := if s > gi.max_wait_time then s else gi.max_wait_time
                      active_uses := ainsert st.guard_counter 0 gi.active_uses })
                    li.known_guards) })
                st.lock_infos)
              guard_counter := st.guard_counter + 1 })
          ({ li with known_guards := (ainsert gl
              ({ gi with
                num_uses := gi.num_uses + 1
                avg_wait_time := gi.avg_wait_time.add_sample s
                max_wait_time := if s > gi.max_wait_time then s else gi.max_wait_time
                active_uses := ainsert st.guard_counter 0 gi.active_uses })
              li.known_guards) })
          ({ gi with
              num_uses := gi.num_uses + 1
              avg_wait_time := gi.avg_wait_time.add_sample s
              max_wait_time := if s > gi.max_wait_time then s else gi.max_wait_time
              active_uses := ainsert st.guard_counter 0 gi.active_uses })
          (alookup_ainsert_self _ _ _) (alookup_ainsert_self _ _ _)
      refine ⟨st', li', gi', ?_, ha, hb, ?_, ?_⟩
      · simp only [List.map_cons, runOps, Op.step, hnew, Option.map_some']
        exact hrun
      · rw [havg, List.foldl_cons]
      · rw [hmax, List.foldl_cons]

/-- C5: feeding any nonempty sequence of wait-time samples into a fresh guard
site (one fast-path acquisition per sample), the reported moving average is
the integer mean of the most recent `WINDOW`-sized (50) subsequence of the
samples, and the reported running maximum (which starts at zero) is the
maximum of all samples fed so far. -/
theorem claim_c5 (k : GuardKind) (ll gl : Location) (samples : List Nat)
    (st0 : GlobalState) (li0 : LockInfo)
    (hll : alookup ll st0.lock_infos = some li0)
    (hgl : alookup gl li0.known_guards = none)
    (hne : samples ≠ []) :
    ∃ st li gi,
      runOps (samples.map (fun s => Op.guardNew k ll gl s 0)) st0 = some st ∧
      alookup ll st.lock_infos = some li ∧
      alookup gl li.known_guards = some gi ∧
      gi.avg_wait_time_view = (lastWin samples).sum / (lastWin samples).length ∧
      gi.max_wait_time = samples.foldl max 0 := by
  cases samples with
  | nil => exact absurd rfl hne
  | cons s rest =>
      have hnew : LockGuard.new k ll gl s 0 st0 =
          some ({ st0 with
              lock_infos := (ainsert ll
                ({ li0 with known_guards := (ainsert gl
                    ({ GuardInfo.new k gl with
                      num_uses := 1
                      avg_wait_time := SingleSumSMA.from_zero.add_sample s
                      max_wait_time := if s > 0 then s else 0
                      active_uses := ainsert st0.guard_counter 0 [] })
                    li0.known_guards) })
                st0.lock_infos)
              guard_counter := st0.guard_counter + 1 },
            { lock_location := ll, guard_location := gl,
              guard_index := st0.guard_counter }) := by
        simp [LockGuard.new, hll, hgl, GuardInfo.new]
      obtain ⟨st', li', gi', hrun, ha, hb, havg, hmax⟩ :=
        runFeed_stats k ll gl rest
          ({ st0 with
              lock_infos := (ainsert ll
                ({ li0 with known_guards := (ainsert gl
                    ({ GuardInfo.new k gl with
                      num_uses := 1
                      avg_wait_time := SingleSumSMA.from_zero.add_sample s
                      max_wait_time := if s > 0 then s else 0
                      active_uses := ainsert st0.guard_counter 0 [] })
                    li0.known_guards) })
                st0.lock_infos)
              guard_counter := st0.guard_counter + 1 })
          ({ li0 with known_guards := (ainsert gl
              ({ GuardInfo.new k gl with
                num_uses := 1
                avg_wait_time := SingleSumSMA.from_zero.add_sample s
                max_wait_time := if s > 0 then s else 0
                active_uses := ainsert st0.guard_counter 0 [] })
              li0.known_guards) })
          ({ GuardInfo.new k gl with
              num_uses := 1
              avg_wait_time := SingleSumSMA.from_zero.add_sample s
              max_wait_time := if s > 0 then s else 0
              active_uses := ainsert st0.guard_counter 0 [] })
          (alookup_ainsert_self _ _ _) (alookup_ainsert_self _ _ _)
      refine ⟨st', li', gi', ?_, ha, hb, ?_, ?_⟩
      · simp only [List.map_cons, runOps, Op.step, hnew, Option.map_some']
        exact hrun
      · unfold GuardInfo.avg_wait_time_view
        rw [havg]
        show (rest.foldl SingleSumSMA.add_sample
            (SingleSumSMA.from_zero.add_sample s)).get_average =
          (lastWin (s :: rest)).sum / (lastWin (s :: rest)).length
        have hfold : rest.foldl SingleSumSMA.add_sample
            (SingleSumSMA.from_zero.add_sample s) = feedAll (s :: rest) := by
          simp [feedAll]
        rw [hfold]
        exact feedAll_get_average (s :: rest) (by simp)
      · rw [hmax]
        show (s :: rest).foldl (fun m s => if s > m then s else m) 0 =
          (s :: rest).foldl max 0
        exact foldl_max_if (s :: rest) 0

/-- The `LockInfo` stored at `locW` right after registration. -/
def liRegW : LockInfo :=
  (alookup locW stRegW.lock_infos).getD
    { kind := .Mutex, location := locW, known_guards := [] }

/-- Witness for C5: feeding the samples `[3, 1, 2]` into a fresh guard site
of the registered lock. -/
theorem claim_c5_witness :
    ∃ st li gi,
      runOps ([3, 1, 2].map (fun s => Op.guardNew .Lock locW glW s 0)) stRegW =
        some st ∧
      alookup locW st.lock_infos = some li ∧
      alookup glW li.known_guards = some gi ∧
      gi.avg_wait_time_view = (lastWin [3, 1, 2]).sum / (lastWin [3, 1, 2]).length ∧
      gi.max_wait_time = [3, 1, 2].foldl max 0 :=
  claim_c5 .Lock locW glW [3, 1, 2] stRegW liRegW (by decide) (by decide) (by decide)

end Locktick
